import Mathlib

/-!
Shallow embedding of the build-audit engine of the AuditBuild repository.

Two variants of the class BuildAudit exist in the sources and are both
embedded here: the one in buildaudit.py (used by AuditBuild.py) in the
namespace buildaudit, and the older self-contained variant inside
AuditMake.py in the namespace AuditMake.

Modelling conventions:
- A python dict mapping relative paths to marker strings is an insertion
  ordered association list (assignment overwrites in place, new keys are
  appended), so that dict identity and ordering are preserved.
- Filesystem timestamps are integers; the code only compares them and
  subtracts them, so the ordered domain is faithful.
- The OS directory walk plus os.lstat is modelled as an input list of
  per-file observations (parent directory, file name, is-directory flag,
  relative path, atime, mtime); the classifier body is translated
  literally from the source.
- The on-disk database file is carried in the state as the parsed value
  last written (json.dump writes self.db verbatim), so claims about the
  file content being unchanged become equations on that component.
-/

/-- A python dict from relative path to marker string. -/
abbrev PathMap := List (String × String)

/-- Python dict assignment: overwrite the binding in place if the key is
present, append it otherwise. -/
def assocSet {α : Type} : List (String × α) → String → α → List (String × α)
  | [], k, v => [(k, v)]
  | (k0, v0) :: rest, k, v =>
    if k0 = k then (k, v) :: rest else (k0, v0) :: assocSet rest k v

/-- Python dict lookup, none when the key is absent. -/
def assocGet {α : Type} : List (String × α) → String → Option α
  | [], _ => none
  | (k0, v0) :: rest, k => if k0 = k then some v0 else assocGet rest k

/-- Python d.update(other): assign every binding of other into d, in
order; bindings of other win on common keys. -/
def dictUpdate {α : Type} (d other : List (String × α)) : List (String × α) :=
  other.foldl (fun acc kv => assocSet acc kv.1 kv.2) d

/-- The key list of a dict, in insertion order. -/
def keys {α : Type} (m : List (String × α)) : List String := m.map Prod.fst

theorem mem_keys_assocSet {α : Type} (m : List (String × α)) (k p : String) (v : α) :
    p ∈ keys (assocSet m k v) ↔ p ∈ keys m ∨ p = k := by
  induction m with
  | nil => simp [assocSet, keys]
  | cons kv rest ih =>
    obtain ⟨k0, v0⟩ := kv
    by_cases h : k0 = k
    · subst h
      simp [assocSet, keys]
      tauto
    · simp only [assocSet, if_neg h, keys, List.map_cons, List.mem_cons] at ih ⊢
      rw [ih]
      tauto

theorem assocGet_assocSet_self {α : Type} (m : List (String × α)) (k : String) (v : α) :
    assocGet (assocSet m k v) k = some v := by
  induction m with
  | nil => simp [assocSet, assocGet]
  | cons kv rest ih =>
    obtain ⟨k0, v0⟩ := kv
    by_cases h : k0 = k
    · subst h
      simp [assocSet, assocGet]
    · simp [assocSet, assocGet, h, ih]

theorem dictUpdate_nil {α : Type} (d : List (String × α)) : dictUpdate d [] = d := rfl

theorem mem_keys_dictUpdate {α : Type} (d other : List (String × α)) (p : String) :
    p ∈ keys (dictUpdate d other) ↔ p ∈ keys d ∨ p ∈ keys other := by
  induction other generalizing d with
  | nil => simp [dictUpdate, keys]
  | cons kv rest ih =>
    have hstep : dictUpdate d (kv :: rest) = dictUpdate (assocSet d kv.1 kv.2) rest := by
      simp [dictUpdate]
    rw [hstep, ih, mem_keys_assocSet]
    simp [keys]
    tauto

theorem isEmpty_eq_false_iff {α : Type} (l : List α) : l.isEmpty = false ↔ l ≠ [] := by
  cases l <;> simp

theorem keys_mem_nonempty {α : Type} (m : List (String × α)) (q : String)
    (h : q ∈ keys m) : m.isEmpty = false := by
  cases m with
  | nil => simp [keys] at h
  | cons kv rest => simp

/-- Python s.startswith(p), via character lists so that it reduces. -/
def strStartsWith (s p : String) : Bool := p.data.isPrefixOf s.data

/-- Python membership test for the pre-existing path snapshot. -/
def inPre (pre : List String) (p : String) : Bool := pre.any (fun x => x == p)

theorem inPre_iff (pre : List String) (p : String) : inPre pre p = true ↔ p ∈ pre := by
  simp only [inPre, List.any_eq_true, beq_iff_eq]
  constructor
  · rintro ⟨x, hx, rfl⟩
    exact hx
  · intro h
    exact ⟨p, h, rfl⟩

/-- Python bool of a set difference: some key of nw is missing from old. -/
def addsNewKey (nw old : PathMap) : Bool :=
  nw.any (fun kv => decide (kv.1 ∉ keys old))

theorem addsNewKey_eq_false_iff (nw old : PathMap) :
    addsNewKey nw old = false ↔ ∀ q ∈ keys nw, q ∈ keys old := by
  simp only [addsNewKey, List.any_eq_false, decide_eq_true_eq, not_not, keys,
    List.mem_map]
  constructor
  · rintro h q ⟨kv, hkv, rfl⟩
    exact h kv hkv
  · intro h kv hkv
    exact h kv.1 ⟨kv, hkv, rfl⟩

theorem addsNewKey_eq_true_iff (nw old : PathMap) :
    addsNewKey nw old = true ↔ ∃ q ∈ keys nw, q ∉ keys old := by
  simp only [addsNewKey, List.any_eq_true, decide_eq_true_eq, keys, List.mem_map]
  constructor
  · rintro ⟨kv, hkv, hq⟩
    exact ⟨kv.1, ⟨kv, hkv, rfl⟩, hq⟩
  · rintro ⟨q, ⟨kv, hkv, rfl⟩, hq⟩
    exact ⟨kv, hkv, hq⟩

namespace buildaudit

/-- One file observation produced by the os.path.walk over the build tree
in BuildAudit.update (buildaudit.py, visit): the directory argument of
the callback, the entry name, whether os.path.isdir holds for it, the
path relative to basedir, and the atime/mtime from os.lstat. -/
structure FileInfo where
  parent : String
  fname : String
  isDir : Bool
  rpath : String
  atime : Int
  mtime : Int
deriving DecidableEq, Repr

/-- The scratch file name used by the reference clock (self.ref_file). -/
def ref_file : String := ".audit-ref.tmp"

/-- The skip conditions of the visit callback in buildaudit.py: the
parent directory must not start with .svn, the entry must not be the
reference scratch file, and directories are not classified. -/
def keepFile (f : FileInfo) : Bool :=
  !(strStartsWith f.parent ".svn") && f.fname != ref_file && !f.isDir

/-- The four categories of buildaudit.py (markers P, I, T, U). -/
inductive Category where
  | prereq
  | intermediate
  | terminal
  | unused
deriving DecidableEq, Repr

/-- The decision chain of the visit callback in buildaudit.py lines
140-152, with adelta = atime - reftime and mdelta = mtime - reftime. -/
def classify (pre : List String) (reftime : Int) (f : FileInfo) : Category :=
  if decide (0 ≤ f.mtime - reftime) then
    if decide (0 ≤ f.atime - reftime) && inPre pre f.rpath then Category.prereq
    else if decide (f.mtime - reftime < f.atime - reftime) then Category.intermediate
    else Category.terminal
  else if decide (0 ≤ f.atime - reftime) && inPre pre f.rpath then Category.prereq
  else Category.unused

/-- The four local dicts built by one run of the visit callback. -/
structure ClassifyResult where
  prereqs : PathMap
  intermediates : PathMap
  terminals : PathMap
  unusedFiles : PathMap
deriving DecidableEq, Repr

def emptyResult : ClassifyResult := ⟨[], [], [], []⟩

def catMap (r : ClassifyResult) : Category → PathMap
  | Category.prereq => r.prereqs
  | Category.intermediate => r.intermediates
  | Category.terminal => r.terminals
  | Category.unused => r.unusedFiles

/-- The marker letter each branch assigns. -/
def marker : Category → String
  | Category.prereq => "P"
  | Category.intermediate => "I"
  | Category.terminal => "T"
  | Category.unused => "U"

def insertCat (acc : ClassifyResult) (c : Category) (p : String) : ClassifyResult :=
  match c with
  | Category.prereq => { acc with prereqs := assocSet acc.prereqs p "P" }
  | Category.intermediate => { acc with intermediates := assocSet acc.intermediates p "I" }
  | Category.terminal => { acc with terminals := assocSet acc.terminals p "T" }
  | Category.unused => { acc with unusedFiles := assocSet acc.unusedFiles p "U" }

/-- One step of the visit callback for one directory entry. -/
def visitStep (pre : List String) (reftime : Int) (acc : ClassifyResult)
    (f : FileInfo) : ClassifyResult :=
  if keepFile f then insertCat acc (classify pre reftime f) f.rpath else acc

/-- The whole classification pass (os.path.walk applying visit). -/
def visitAll (pre : List String) (reftime : Int) (files : List FileInfo) :
    ClassifyResult :=
  files.foldl (visitStep pre reftime) emptyResult

theorem mem_keys_insertCat (acc : ClassifyResult) (c c2 : Category) (q p : String) :
    p ∈ keys (catMap (insertCat acc c q) c2) ↔
      p ∈ keys (catMap acc c2) ∨ (c2 = c ∧ p = q) := by
  cases c <;> cases c2 <;>
    simp [insertCat, catMap, mem_keys_assocSet]

theorem mem_keys_visit_foldl (pre : List String) (reftime : Int)
    (files : List FileInfo) (acc : ClassifyResult) (c : Category) (p : String) :
    p ∈ keys (catMap (List.foldl (visitStep pre reftime) acc files) c) ↔
      p ∈ keys (catMap acc c) ∨
        ∃ f, f ∈ files ∧ keepFile f = true ∧ f.rpath = p ∧ classify pre reftime f = c := by
  induction files generalizing acc with
  | nil => simp
  | cons f fs ih =>
    rw [List.foldl_cons, ih]
    by_cases hk : keepFile f = true
    · rw [show visitStep pre reftime acc f = insertCat acc (classify pre reftime f) f.rpath
        from by simp [visitStep, hk]]
      rw [mem_keys_insertCat]
      constructor
      · rintro ((h | ⟨rfl, rfl⟩) | ⟨g, hg, hgk, rfl, rfl⟩)
        · exact Or.inl h
        · exact Or.inr ⟨f, List.mem_cons_self f fs, hk, rfl, rfl⟩
        · exact Or.inr ⟨g, List.mem_cons_of_mem f hg, hgk, rfl, rfl⟩
      · rintro (h | ⟨g, hg, hgk, rfl, rfl⟩)
        · exact Or.inl (Or.inl h)
        · rcases List.mem_cons.mp hg with rfl | hg2
          · exact Or.inl (Or.inr ⟨rfl, rfl⟩)
          · exact Or.inr ⟨g, hg2, hgk, rfl, rfl⟩
    · rw [show visitStep pre reftime acc f = acc from by simp [visitStep, hk]]
      constructor
      · rintro (h | ⟨g, hg, hgk, rfl, rfl⟩)
        · exact Or.inl h
        · exact Or.inr ⟨g, List.mem_cons_of_mem f hg, hgk, rfl, rfl⟩
      · rintro (h | ⟨g, hg, hgk, rfl, rfl⟩)
        · exact Or.inl h
        · rcases List.mem_cons.mp hg with rfl | hg2
          · exact absurd hgk hk
          · exact Or.inr ⟨g, hg2, hgk, rfl, rfl⟩

theorem catMap_emptyResult (c : Category) : catMap emptyResult c = [] := by
  cases c <;> rfl

theorem mem_keys_visitAll (pre : List String) (reftime : Int)
    (files : List FileInfo) (c : Category) (p : String) :
    p ∈ keys (catMap (visitAll pre reftime files) c) ↔
      ∃ f, f ∈ files ∧ keepFile f = true ∧ f.rpath = p ∧ classify pre reftime f = c := by
  rw [visitAll, mem_keys_visit_foldl, catMap_emptyResult]
  simp [keys]

end buildaudit

namespace buildaudit

/-- The COMMENT metadata block of an audit record in buildaudit.py.
bldtime and baseurl are the update arguments; cmdline models sys.argv
and reftimeStr the printf-composed reference time string (both taken
from the environment). -/
structure Meta where
  bldtime : String
  cmdline : List String
  reftimeStr : String
  baseurl : String
deriving DecidableEq, Repr

/-- One audit record: the four path dicts plus the COMMENT block. -/
structure Record where
  prereqs : PathMap
  intermediates : PathMap
  terminals : PathMap
  unusedFiles : PathMap
  comment : Meta
deriving DecidableEq, Repr

/-- The state of a BuildAudit object from buildaudit.py, together with
the parsed content of the database file it last observed or wrote (disk)
so that on-disk frame conditions can be stated. -/
structure AuditState where
  db : List (String × Record)
  disk : List (String × Record)
  new_targets : PathMap
  pre_existing : List String
  reftime : Int
deriving DecidableEq, Repr

/-- Result of one BuildAudit.update call: the successor state, whether
warnings.warn was invoked for an empty prerequisite set, and whether
json.dump rewrote the database file. -/
structure UpdateResult where
  state : AuditState
  warned : Bool
  wrote : Bool
deriving DecidableEq, Repr

/-- BuildAudit.update from buildaudit.py lines 124-177.  The walk result
is the files argument; meta packages the bldtime/baseurl arguments with
the environmental sys.argv and reference-time string.  new_targets is
extended with intermediates and terminals first; then an empty prereq
dict only warns, a true replace flag stores the new record verbatim and
dumps the database, and otherwise nothing further happens. -/
def update (st : AuditState) (key : String) (files : List FileInfo)
    (meta : Meta) (replace : Bool) : UpdateResult :=
  let r := visitAll st.pre_existing st.reftime files
  let nt := dictUpdate (dictUpdate st.new_targets r.intermediates) r.terminals
  if r.prereqs.isEmpty then
    ⟨⟨st.db, st.disk, nt, st.pre_existing, st.reftime⟩, true, false⟩
  else if replace then
    let db2 := assocSet st.db key
      ⟨r.prereqs, r.intermediates, r.terminals, r.unusedFiles, meta⟩
    ⟨⟨db2, db2, nt, st.pre_existing, st.reftime⟩, false, true⟩
  else
    ⟨⟨st.db, st.disk, nt, st.pre_existing, st.reftime⟩, false, false⟩

/-- One observation of the reference scratch file: st_mtime and st_atime
of the freshly rewritten file (os.fstat in get_time_past). -/
structure Sample where
  mtime : Int
  atime : Int
deriving DecidableEq, Repr

/-- The get_time_past loop of BuildAudit.setup: rewrite the scratch file
and stat it until its mtime exceeds the bound; samples is the stream of
stat results the filesystem would deliver, and none models a loop that
never terminates within the observed stream. -/
def get_time_past (samples : List Sample) (previous : Int) : Option Sample :=
  samples.find? (fun s => decide (previous < s.mtime))

/-- BuildAudit.setup from buildaudit.py lines 73-119: snapshot the
pre-existing relative paths (the os.walk with .svn pruning is the OS
traversal, given here as preFiles), take two clock samples, and keep the
second mtime as reftime when the access time moved, the sentinel -1
otherwise. -/
def setup (st : AuditState) (preFiles : List String)
    (samples1 samples2 : List Sample) : Option AuditState :=
  (get_time_past samples1 0).bind fun s1 =>
    (get_time_past samples2 s1.mtime).map fun s2 =>
      ⟨st.db, st.disk, st.new_targets, preFiles,
        if s1.atime < s2.atime then s2.mtime else -1⟩

/-- BuildAudit.noatime from buildaudit.py line 121. -/
def noatime (st : AuditState) : Bool := st.reftime == -1

end buildaudit

namespace AuditBuild

/-- Result of the post-build audit step of AuditBuild.main: the audit
object state afterwards, whether the noatime warning fired, whether the
empty-prereq warning fired inside update, and the file list fed to the
copy-back rsync (none when that rsync does not run). -/
structure StepResult where
  state : buildaudit.AuditState
  warnedNoatime : Bool
  warnedEmpty : Bool
  copyBack : Option PathMap
deriving DecidableEq, Repr

/-- The audit branch of AuditBuild.main lines 201-221: when noatime was
signalled the audit is skipped with a warning (and any external-tree
copy-in does not consult the audit); otherwise update runs and, under an
external base, a non-empty new_targets set is fed to the copy-back
rsync. -/
def auditStep (st : buildaudit.AuditState) (key : String)
    (files : List buildaudit.FileInfo) (meta : buildaudit.Meta)
    (replace : Bool) (externalBase : Bool) : StepResult :=
  if buildaudit.noatime st then
    ⟨st, true, false, none⟩
  else
    let u := buildaudit.update st key files meta replace
    ⟨u.state, false, u.warned,
      if externalBase && !u.state.new_targets.isEmpty
        then some u.state.new_targets else none⟩

end AuditBuild

namespace AuditMake

/-- One file observation of the os.path.walk in AuditMake.BuildAudit
.update: callback directory, is-directory flag, relative path, and the
os.lstat atime/mtime. -/
structure FileInfo where
  parent : String
  isDir : Bool
  rpath : String
  atime : Int
  mtime : Int
deriving DecidableEq, Repr

/-- The skip conditions of the AuditMake visit callback: any hidden
parent directory is skipped, and directories are not classified. -/
def keepFile (f : FileInfo) : Bool :=
  !(strStartsWith f.parent ".") && !f.isDir

/-- The four accumulator dicts of AuditMake (PREREQS, INTERMS, TARGETS,
NOTUSED). -/
inductive ACat where
  | prereqs
  | interms
  | targets
  | notused
deriving DecidableEq, Repr

/-- The decision chain of the AuditMake visit callback, lines 189-197:
a modified file is an interm when read after it was written and a target
otherwise; an unmodified file read during the window is a prereq, and
anything else was not used. -/
def classify (reftime : Int) (f : FileInfo) : ACat :=
  if decide (0 ≤ f.mtime - reftime) then
    if decide (f.mtime - reftime < f.atime - reftime) then ACat.interms else ACat.targets
  else if decide (0 ≤ f.atime - reftime) then ACat.prereqs
  else ACat.notused

def markerAM : ACat → String
  | ACat.prereqs => "P"
  | ACat.interms => "I"
  | ACat.targets => "T"
  | ACat.notused => "N"

/-- The value string stored for one file: marker, then the raw deltas. -/
def valueOf (reftime : Int) (f : FileInfo) : String :=
  markerAM (classify reftime f) ++ " " ++ toString (f.atime - reftime) ++ " "
    ++ toString (f.mtime - reftime)

/-- The four accumulator dicts held on the audit object (self.new_prereqs
and friends, aliases into self.audit). -/
structure Audit where
  new_prereqs : PathMap
  new_interms : PathMap
  new_targets : PathMap
  new_notused : PathMap
deriving DecidableEq, Repr

def emptyAudit : Audit := ⟨[], [], [], []⟩

def auditCat (a : Audit) : ACat → PathMap
  | ACat.prereqs => a.new_prereqs
  | ACat.interms => a.new_interms
  | ACat.targets => a.new_targets
  | ACat.notused => a.new_notused

def insertCat (a : Audit) (c : ACat) (p v : String) : Audit :=
  match c with
  | ACat.prereqs => { a with new_prereqs := assocSet a.new_prereqs p v }
  | ACat.interms => { a with new_interms := assocSet a.new_interms p v }
  | ACat.targets => { a with new_targets := assocSet a.new_targets p v }
  | ACat.notused => { a with new_notused := assocSet a.new_notused p v }

/-- One step of the AuditMake visit callback, writing into the object
accumulators. -/
def visitStep (reftime : Int) (a : Audit) (f : FileInfo) : Audit :=
  if keepFile f then insertCat a (classify reftime f) f.rpath (valueOf reftime f) else a

/-- The whole AuditMake walk: visit applied to every observed file,
accumulating into the audit object state. -/
def visitAll (reftime : Int) (a : Audit) (files : List FileInfo) : Audit :=
  files.foldl (visitStep reftime) a

/-- One record of the AuditMake database: the four dicts, the sys.argv
snapshot, and the REFTIME string present only once a build was stored. -/
structure Record where
  prereqs : PathMap
  interms : PathMap
  targets : PathMap
  notused : PathMap
  cmdline : List String
  reftimeStr : Option String
deriving DecidableEq, Repr

def recCat (r : Record) : ACat → PathMap
  | ACat.prereqs => r.prereqs
  | ACat.interms => r.interms
  | ACat.targets => r.targets
  | ACat.notused => r.notused

/-- The record written by the clearing assignment of update line 204. -/
def emptyRecord (cmdline : List String) : Record := ⟨[], [], [], [], cmdline, none⟩

/-- The state of an AuditMake BuildAudit object plus the parsed content
of its database file. -/
structure State where
  db : List (String × Record)
  disk : List (String × Record)
  audit : Audit
  reftime : Int
deriving DecidableEq, Repr

/-- BuildAudit.has from AuditMake.py. -/
def has (st : State) (key : String) : Bool := (assocGet st.db key).isSome

/-- The old_prereqs/old_interms/old_targets/old_notused accessors of
AuditMake.py, over an explicit database value. -/
def oldCat (db : List (String × Record)) (key : String) (c : ACat) : PathMap :=
  match assocGet db key with
  | some r => recCat r c
  | none => []

/-- The in-memory database after the clearing step of update line 203:
replace or an unknown key installs an empty record first. -/
def db1Of (st : State) (key : String) (cmdline : List String) (replace : Bool) :
    List (String × Record) :=
  if replace || !(has st key) then assocSet st.db key (emptyRecord cmdline) else st.db

/-- The write guard of update lines 208-210: some new path in the
prereq, interm or target dict is absent from the stored record. -/
def changed (a : Audit) (db1 : List (String × Record)) (key : String) : Bool :=
  addsNewKey a.new_prereqs (oldCat db1 key ACat.prereqs)
    || addsNewKey a.new_interms (oldCat db1 key ACat.interms)
    || addsNewKey a.new_targets (oldCat db1 key ACat.targets)

/-- The accumulator state after the self.new_xxx.update(old_xxx) calls of
update lines 211-213 (notused is not merged). -/
def mergeAudit (a : Audit) (db1 : List (String × Record)) (key : String) : Audit :=
  ⟨dictUpdate a.new_prereqs (oldCat db1 key ACat.prereqs),
   dictUpdate a.new_interms (oldCat db1 key ACat.interms),
   dictUpdate a.new_targets (oldCat db1 key ACat.targets),
   a.new_notused⟩

structure UpdateResult where
  state : State
  warned : Bool
  wrote : Bool
deriving DecidableEq, Repr

/-- BuildAudit.update from AuditMake.py lines 175-220.  The visit walk
accumulates into the object dicts; an empty accumulated prereq dict only
warns; otherwise the record is cleared on replace or a fresh key, and
when the merge would add a path the merged record is stored and the
database dumped. -/
def update (st : State) (key : String) (files : List FileInfo)
    (cmdline : List String) (replace : Bool) : UpdateResult :=
  let a := visitAll st.reftime st.audit files
  if a.new_prereqs.isEmpty then
    ⟨⟨st.db, st.disk, a, st.reftime⟩, true, false⟩
  else
    let db1 := db1Of st key cmdline replace
    if changed a db1 key then
      let m := mergeAudit a db1 key
      let r2 : Record := ⟨m.new_prereqs, m.new_interms, m.new_targets,
        m.new_notused, cmdline, some (toString st.reftime)⟩
      let db2 := assocSet db1 key r2
      ⟨⟨db2, db2, m, st.reftime⟩, false, true⟩
    else
      ⟨⟨db1, st.disk, a, st.reftime⟩, false, false⟩

theorem mem_keys_insertCatAM (a : Audit) (c c2 : ACat) (q v p : String) :
    p ∈ keys (auditCat (insertCat a c q v) c2) ↔
      p ∈ keys (auditCat a c2) ∨ (c2 = c ∧ p = q) := by
  cases c <;> cases c2 <;>
    simp [insertCat, auditCat, mem_keys_assocSet]

theorem mem_keys_visit_foldlAM (reftime : Int) (files : List FileInfo)
    (a : Audit) (c : ACat) (p : String) :
    p ∈ keys (auditCat (List.foldl (visitStep reftime) a files) c) ↔
      p ∈ keys (auditCat a c) ∨
        ∃ f, f ∈ files ∧ keepFile f = true ∧ f.rpath = p ∧ classify reftime f = c := by
  induction files generalizing a with
  | nil => simp
  | cons f fs ih =>
    rw [List.foldl_cons, ih]
    by_cases hk : keepFile f = true
    · rw [show visitStep reftime a f
          = insertCat a (classify reftime f) f.rpath (valueOf reftime f)
        from by simp [visitStep, hk]]
      rw [mem_keys_insertCatAM]
      constructor
      · rintro ((h | ⟨rfl, rfl⟩) | ⟨g, hg, hgk, rfl, rfl⟩)
        · exact Or.inl h
        · exact Or.inr ⟨f, List.mem_cons_self f fs, hk, rfl, rfl⟩
        · exact Or.inr ⟨g, List.mem_cons_of_mem f hg, hgk, rfl, rfl⟩
      · rintro (h | ⟨g, hg, hgk, rfl, rfl⟩)
        · exact Or.inl (Or.inl h)
        · rcases List.mem_cons.mp hg with rfl | hg2
          · exact Or.inl (Or.inr ⟨rfl, rfl⟩)
          · exact Or.inr ⟨g, hg2, hgk, rfl, rfl⟩
    · rw [show visitStep reftime a f = a from by simp [visitStep, hk]]
      constructor
      · rintro (h | ⟨g, hg, hgk, rfl, rfl⟩)
        · exact Or.inl h
        · exact Or.inr ⟨g, List.mem_cons_of_mem f hg, hgk, rfl, rfl⟩
      · rintro (h | ⟨g, hg, hgk, rfl, rfl⟩)
        · exact Or.inl h
        · rcases List.mem_cons.mp hg with rfl | hg2
          · exact absurd hgk hk
          · exact Or.inr ⟨g, hg2, hgk, rfl, rfl⟩

theorem mem_keys_visitAllAM (reftime : Int) (files : List FileInfo)
    (a : Audit) (c : ACat) (p : String) :
    p ∈ keys (auditCat (visitAll reftime a files) c) ↔
      p ∈ keys (auditCat a c) ∨
        ∃ f, f ∈ files ∧ keepFile f = true ∧ f.rpath = p ∧ classify reftime f = c :=
  mem_keys_visit_foldlAM reftime files a c p

end AuditMake

namespace buildaudit

/-- Outcome of the expression json.load(open(self.dbfile)) in
BuildAudit.__init__ (buildaudit.py lines 29-32; the AuditMake variant
lines 123-126 is identical): the file opens and parses, the open call
raises IOError (missing or unreadable file), or the content does not
parse and json raises ValueError. -/
inductive LoadResult where
  | parsed (db : List (String × Record))
  | ioError
  | valueError
deriving DecidableEq

/-- The python exceptions that matter to __init__. -/
inductive PyError where
  | ioError
  | valueError
deriving DecidableEq, Repr

/-- The json.load(open(dbfile)) call as a fallible operation. -/
def json_load : LoadResult → Except PyError (List (String × Record))
  | LoadResult.parsed d => Except.ok d
  | LoadResult.ioError => Except.error PyError.ioError
  | LoadResult.valueError => Except.error PyError.valueError

/-- The try/except body of BuildAudit.__init__: only IOError is caught
(yielding the empty database); every other exception propagates out of
the constructor. -/
def init_db (r : LoadResult) : Except PyError (List (String × Record)) :=
  match json_load r with
  | Except.ok d => Except.ok d
  | Except.error PyError.ioError => Except.ok []
  | Except.error e => Except.error e

/-- Shorthand for the new_targets dict after the two update calls at
buildaudit.py lines 155-156. -/
def ntAfter (st : AuditState) (files : List FileInfo) : PathMap :=
  dictUpdate (dictUpdate st.new_targets
      (visitAll st.pre_existing st.reftime files).intermediates)
    (visitAll st.pre_existing st.reftime files).terminals

theorem update_eq_of_empty (st : AuditState) (key : String) (files : List FileInfo)
    (meta : Meta) (replace : Bool)
    (hp : (visitAll st.pre_existing st.reftime files).prereqs.isEmpty = true) :
    update st key files meta replace =
      ⟨⟨st.db, st.disk, ntAfter st files, st.pre_existing, st.reftime⟩, true, false⟩ := by
  simp [update, hp, ntAfter]

theorem update_eq_replace (st : AuditState) (key : String) (files : List FileInfo)
    (meta : Meta)
    (hp : (visitAll st.pre_existing st.reftime files).prereqs.isEmpty = false) :
    update st key files meta true =
      ⟨⟨assocSet st.db key
          ⟨(visitAll st.pre_existing st.reftime files).prereqs,
           (visitAll st.pre_existing st.reftime files).intermediates,
           (visitAll st.pre_existing st.reftime files).terminals,
           (visitAll st.pre_existing st.reftime files).unusedFiles, meta⟩,
        assocSet st.db key
          ⟨(visitAll st.pre_existing st.reftime files).prereqs,
           (visitAll st.pre_existing st.reftime files).intermediates,
           (visitAll st.pre_existing st.reftime files).terminals,
           (visitAll st.pre_existing st.reftime files).unusedFiles, meta⟩,
        ntAfter st files, st.pre_existing, st.reftime⟩, false, true⟩ := by
  simp [update, hp, ntAfter]

theorem update_eq_noreplace (st : AuditState) (key : String) (files : List FileInfo)
    (meta : Meta)
    (hp : (visitAll st.pre_existing st.reftime files).prereqs.isEmpty = false) :
    update st key files meta false =
      ⟨⟨st.db, st.disk, ntAfter st files, st.pre_existing, st.reftime⟩, false, false⟩ := by
  simp [update, hp, ntAfter]

end buildaudit

namespace AuditMake

theorem update_eq_of_emptyAM (st : State) (key : String) (files : List FileInfo)
    (cmdline : List String) (replace : Bool)
    (hp : (visitAll st.reftime st.audit files).new_prereqs.isEmpty = true) :
    update st key files cmdline replace =
      ⟨⟨st.db, st.disk, visitAll st.reftime st.audit files, st.reftime⟩, true, false⟩ := by
  simp [update, hp]

theorem update_eq_writeAM (st : State) (key : String) (files : List FileInfo)
    (cmdline : List String) (replace : Bool)
    (hp : (visitAll st.reftime st.audit files).new_prereqs.isEmpty = false)
    (hch : changed (visitAll st.reftime st.audit files)
      (db1Of st key cmdline replace) key = true) :
    update st key files cmdline replace =
      ⟨⟨assocSet (db1Of st key cmdline replace) key
          ⟨(mergeAudit (visitAll st.reftime st.audit files)
              (db1Of st key cmdline replace) key).new_prereqs,
           (mergeAudit (visitAll st.reftime st.audit files)
              (db1Of st key cmdline replace) key).new_interms,
           (mergeAudit (visitAll st.reftime st.audit files)
              (db1Of st key cmdline replace) key).new_targets,
           (mergeAudit (visitAll st.reftime st.audit files)
              (db1Of st key cmdline replace) key).new_notused,
           cmdline, some (toString st.reftime)⟩,
        assocSet (db1Of st key cmdline replace) key
          ⟨(mergeAudit (visitAll st.reftime st.audit files)
              (db1Of st key cmdline replace) key).new_prereqs,
           (mergeAudit (visitAll st.reftime st.audit files)
              (db1Of st key cmdline replace) key).new_interms,
           (mergeAudit (visitAll st.reftime st.audit files)
              (db1Of st key cmdline replace) key).new_targets,
           (mergeAudit (visitAll st.reftime st.audit files)
              (db1Of st key cmdline replace) key).new_notused,
           cmdline, some (toString st.reftime)⟩,
        mergeAudit (visitAll st.reftime st.audit files)
          (db1Of st key cmdline replace) key, st.reftime⟩, false, true⟩ := by
  simp [update, hp, hch]

theorem update_eq_nowriteAM (st : State) (key : String) (files : List FileInfo)
    (cmdline : List String) (replace : Bool)
    (hp : (visitAll st.reftime st.audit files).new_prereqs.isEmpty = false)
    (hch : changed (visitAll st.reftime st.audit files)
      (db1Of st key cmdline replace) key = false) :
    update st key files cmdline replace =
      ⟨⟨db1Of st key cmdline replace, st.disk, visitAll st.reftime st.audit files,
        st.reftime⟩, false, false⟩ := by
  simp [update, hp, hch]

theorem db1Of_of_has (st : State) (key : String) (cmdline : List String)
    (hk : has st key = true) : db1Of st key cmdline false = st.db := by
  simp [db1Of, hk]

theorem auditCat_emptyAudit (c : ACat) : auditCat emptyAudit c = [] := by
  cases c <;> rfl

theorem recCat_emptyRecord (cmdline : List String) (c : ACat) :
    recCat (emptyRecord cmdline) c = [] := by
  cases c <;> rfl

theorem keys_exists_of_nonempty {α : Type} (m : List (String × α))
    (h : m.isEmpty = false) : ∃ q, q ∈ keys m := by
  cases m with
  | nil => simp at h
  | cons kv rest => exact ⟨kv.1, by simp [keys]⟩

end AuditMake

namespace AuditMake

theorem oldCat_assocSet_self (db : List (String × Record)) (key : String)
    (r : Record) (c : ACat) :
    oldCat (assocSet db key r) key c = recCat r c := by
  rw [oldCat, assocGet_assocSet_self]

theorem recCat_mk (p i t n : PathMap) (cmd : List String) (rs : Option String)
    (c : ACat) : recCat ⟨p, i, t, n, cmd, rs⟩ c = auditCat ⟨p, i, t, n⟩ c := by
  cases c <;> rfl

theorem update_incremental (st : State) (key : String) (files : List FileInfo)
    (cmdline : List String) (hk : has st key = true)
    (hp : (visitAll st.reftime st.audit files).new_prereqs.isEmpty = false) :
    (∀ c, (c = ACat.prereqs ∨ c = ACat.interms ∨ c = ACat.targets) →
      (∀ q, q ∈ keys (oldCat (update st key files cmdline false).state.db key c) ↔
        q ∈ keys (oldCat st.db key c) ∨
          q ∈ keys (auditCat (visitAll st.reftime st.audit files) c)) ∧
      (∀ q, q ∈ keys (auditCat (update st key files cmdline false).state.audit c) →
        q ∈ keys (oldCat (update st key files cmdline false).state.db key c)) ∧
      (∀ q, q ∈ keys (auditCat (visitAll st.reftime st.audit files) c) →
        q ∈ keys (auditCat (update st key files cmdline false).state.audit c))) ∧
    has (update st key files cmdline false).state key = true ∧
    (update st key files cmdline false).state.reftime = st.reftime ∧
    (update st key files cmdline false).state.audit.new_prereqs.isEmpty = false := by
  have hdb1 : db1Of st key cmdline false = st.db := db1Of_of_has st key cmdline hk
  cases hch : changed (visitAll st.reftime st.audit files)
      (db1Of st key cmdline false) key with
  | false =>
    rw [update_eq_nowriteAM st key files cmdline false hp hch]
    have hsub := hch
    rw [hdb1] at hsub
    simp only [changed, Bool.or_eq_false_iff] at hsub
    obtain ⟨⟨hsp, hsi⟩, hst2⟩ := hsub
    have hsubC : ∀ c, (c = ACat.prereqs ∨ c = ACat.interms ∨ c = ACat.targets) →
        ∀ q, q ∈ keys (auditCat (visitAll st.reftime st.audit files) c) →
          q ∈ keys (oldCat st.db key c) := by
      rintro c (rfl | rfl | rfl) q hq
      · exact (addsNewKey_eq_false_iff _ _).mp hsp q hq
      · exact (addsNewKey_eq_false_iff _ _).mp hsi q hq
      · exact (addsNewKey_eq_false_iff _ _).mp hst2 q hq
    refine ⟨fun c hc => ⟨fun q => ?_, fun q hq => ?_, fun q hq => hq⟩, ?_, rfl, hp⟩
    · show q ∈ keys (oldCat (db1Of st key cmdline false) key c) ↔ _
      rw [hdb1]
      constructor
      · exact fun h => Or.inl h
      · rintro (h | h)
        · exact h
        · exact hsubC c hc q h
    · show q ∈ keys (oldCat (db1Of st key cmdline false) key c)
      rw [hdb1]
      exact hsubC c hc q hq
    · show has ⟨db1Of st key cmdline false, st.disk,
        visitAll st.reftime st.audit files, st.reftime⟩ key = true
      simp only [has, hdb1]
      exact hk
  | true =>
    rw [update_eq_writeAM st key files cmdline false hp hch]
    have hmerge : ∀ c, (c = ACat.prereqs ∨ c = ACat.interms ∨ c = ACat.targets) →
        auditCat (mergeAudit (visitAll st.reftime st.audit files)
            (db1Of st key cmdline false) key) c =
          dictUpdate (auditCat (visitAll st.reftime st.audit files) c)
            (oldCat (db1Of st key cmdline false) key c) := by
      rintro c (rfl | rfl | rfl) <;> rfl
    have heta : ∀ c : ACat, recCat
        ⟨(mergeAudit (visitAll st.reftime st.audit files)
            (db1Of st key cmdline false) key).new_prereqs,
         (mergeAudit (visitAll st.reftime st.audit files)
            (db1Of st key cmdline false) key).new_interms,
         (mergeAudit (visitAll st.reftime st.audit files)
            (db1Of st key cmdline false) key).new_targets,
         (mergeAudit (visitAll st.reftime st.audit files)
            (db1Of st key cmdline false) key).new_notused,
         cmdline, some (toString st.reftime)⟩ c =
        auditCat (mergeAudit (visitAll st.reftime st.audit files)
            (db1Of st key cmdline false) key) c := by
      intro c
      cases c <;> rfl
    refine ⟨fun c hc => ⟨fun q => ?_, fun q hq => ?_, fun q hq => ?_⟩, ?_, rfl, ?_⟩
    · show q ∈ keys (oldCat (assocSet (db1Of st key cmdline false) key _) key c) ↔ _
      rw [oldCat_assocSet_self, heta, hmerge c hc, mem_keys_dictUpdate, hdb1]
      tauto
    · show q ∈ keys (oldCat (assocSet (db1Of st key cmdline false) key _) key c)
      rw [oldCat_assocSet_self, heta]
      exact hq
    · show q ∈ keys (auditCat (mergeAudit (visitAll st.reftime st.audit files)
        (db1Of st key cmdline false) key) c)
      rw [hmerge c hc, mem_keys_dictUpdate]
      exact Or.inl hq
    · show (assocGet (assocSet (db1Of st key cmdline false) key _) key).isSome = true
      rw [assocGet_assocSet_self]
      rfl
    · show (mergeAudit (visitAll st.reftime st.audit files)
        (db1Of st key cmdline false) key).new_prereqs.isEmpty = false
      obtain ⟨q, hq⟩ := keys_exists_of_nonempty _ hp
      exact keys_mem_nonempty _ q ((mem_keys_dictUpdate _ _ q).mpr (Or.inl hq))

end AuditMake

theorem inPre_eq_false_iff (pre : List String) (p : String) :
    inPre pre p = false ↔ p ∉ pre := by
  rw [← inPre_iff]
  cases inPre pre p <;> simp

/-- C3: in buildaudit.py, a file whose modification and access deltas are
both nonnegative and whose relative path is in the pre-existing snapshot
is classified Prerequisite, regardless of how the access delta compares
to the modification delta, and the classification pass records it in the
prereqs dict. -/
theorem C3_preexisting_prereq (pre : List String) (reftime : Int)
    (files : List buildaudit.FileInfo) (f : buildaudit.FileInfo)
    (hm : 0 ≤ f.mtime - reftime) (ha : 0 ≤ f.atime - reftime)
    (hpre : f.rpath ∈ pre) (hf : f ∈ files) (hk : buildaudit.keepFile f = true) :
    buildaudit.classify pre reftime f = buildaudit.Category.prereq ∧
    f.rpath ∈ keys (buildaudit.visitAll pre reftime files).prereqs := by
  have hcl : buildaudit.classify pre reftime f = buildaudit.Category.prereq := by
    simp [buildaudit.classify, hm, ha, (inPre_iff pre f.rpath).mpr hpre]
  refine ⟨hcl, ?_⟩
  exact (buildaudit.mem_keys_visitAll pre reftime files
    buildaudit.Category.prereq f.rpath).mpr ⟨f, hf, hk, rfl, hcl⟩

/-- Witness for C3 at a concrete pre-existing file with both deltas
nonnegative and access delta below modification delta. -/
theorem C3_preexisting_prereq_witness :
    (0 : Int) ≤ (11 : Int) - 10 ∧ (0 : Int) ≤ (12 : Int) - 10 ∧
    ("a" : String) ∈ ["a"] ∧
    (buildaudit.classify ["a"] 10 ⟨"d", "a", false, "a", 12, 11⟩
        = buildaudit.Category.prereq ∧
      "a" ∈ keys (buildaudit.visitAll ["a"] 10
        [⟨"d", "a", false, "a", 12, 11⟩]).prereqs) :=
  ⟨by decide, by decide, by decide,
    C3_preexisting_prereq ["a"] 10 [⟨"d", "a", false, "a", 12, 11⟩]
      ⟨"d", "a", false, "a", 12, 11⟩ (by decide) (by decide) (by decide)
      (by decide) (by decide)⟩

/-- C2 counterexample: a file read but not written during the window
(access delta nonnegative, modification delta negative) whose path is
not in the pre-existing snapshot is classified Unused by buildaudit.py,
not Prerequisite, so the claimed "regardless of pre-existing membership"
fails at this input. -/
theorem C2_counterexample :
    (0 : Int) ≤ (12 : Int) - 10 ∧ (5 : Int) - 10 < 0 ∧
    buildaudit.classify [] 10 ⟨"d", "b", false, "b", 12, 5⟩
      = buildaudit.Category.unused ∧
    buildaudit.classify [] 10 ⟨"d", "b", false, "b", 12, 5⟩
      ≠ buildaudit.Category.prereq ∧
    (buildaudit.visitAll [] 10 [⟨"d", "b", false, "b", 12, 5⟩]).prereqs = [] ∧
    (buildaudit.visitAll [] 10 [⟨"d", "b", false, "b", 12, 5⟩]).unusedFiles
      = [("b", "U")] := by
  decide

/-- C2 amended: a file with access delta nonnegative and modification
delta negative is classified Prerequisite when its path is in the
pre-existing snapshot and Unused otherwise. -/
theorem C2_read_only_guarded (pre : List String) (reftime : Int)
    (f : buildaudit.FileInfo) (ha : 0 ≤ f.atime - reftime)
    (hm : f.mtime - reftime < 0) :
    buildaudit.classify pre reftime f =
      (if f.rpath ∈ pre then buildaudit.Category.prereq
        else buildaudit.Category.unused) := by
  have hm2 : ¬ (0 ≤ f.mtime - reftime) := not_le.mpr hm
  by_cases hpre : f.rpath ∈ pre
  · simp [buildaudit.classify, hm2, ha, (inPre_iff pre f.rpath).mpr hpre, hpre]
  · have h4 : inPre pre f.rpath = false := (inPre_eq_false_iff pre f.rpath).mpr hpre
    simp [buildaudit.classify, hm2, ha, h4, hpre]

/-- Witness for the amended C2 on both sides of the pre-existing test. -/
theorem C2_read_only_guarded_witness :
    (0 : Int) ≤ (12 : Int) - 10 ∧ (5 : Int) - 10 < 0 ∧
    buildaudit.classify ["b"] 10 ⟨"d", "b", false, "b", 12, 5⟩
      = (if ("b" : String) ∈ ["b"] then buildaudit.Category.prereq
          else buildaudit.Category.unused) :=
  ⟨by decide, by decide,
    C2_read_only_guarded ["b"] 10 ⟨"d", "b", false, "b", 12, 5⟩
      (by decide) (by decide)⟩

/-- C5: when the classification pass finds no prerequisite, update from
buildaudit.py warns and does not touch either the in-memory database or
the database file, for every key, metadata and replace flag. -/
theorem C5_empty_prereqs_no_persist (st : buildaudit.AuditState) (key : String)
    (files : List buildaudit.FileInfo) (meta : buildaudit.Meta) (replace : Bool)
    (hp : (buildaudit.visitAll st.pre_existing st.reftime files).prereqs.isEmpty
      = true) :
    (buildaudit.update st key files meta replace).state.disk = st.disk ∧
    (buildaudit.update st key files meta replace).state.db = st.db ∧
    (buildaudit.update st key files meta replace).warned = true ∧
    (buildaudit.update st key files meta replace).wrote = false := by
  rw [buildaudit.update_eq_of_empty st key files meta replace hp]
  exact ⟨rfl, rfl, rfl, rfl⟩

/-- Witness for C5: a pass over a tree whose only file was untouched
yields no prerequisite and leaves the stored database alone. -/
theorem C5_empty_prereqs_no_persist_witness :
    (buildaudit.visitAll ["a"] 10 [⟨"d", "a", false, "a", 3, 4⟩]).prereqs.isEmpty
      = true ∧
    ((buildaudit.update ⟨[], [], [], ["a"], 10⟩ "k" [⟨"d", "a", false, "a", 3, 4⟩]
        ⟨"t", [], "r", "u"⟩ true).state.disk = [] ∧
      (buildaudit.update ⟨[], [], [], ["a"], 10⟩ "k" [⟨"d", "a", false, "a", 3, 4⟩]
        ⟨"t", [], "r", "u"⟩ true).state.db = [] ∧
      (buildaudit.update ⟨[], [], [], ["a"], 10⟩ "k" [⟨"d", "a", false, "a", 3, 4⟩]
        ⟨"t", [], "r", "u"⟩ true).warned = true ∧
      (buildaudit.update ⟨[], [], [], ["a"], 10⟩ "k" [⟨"d", "a", false, "a", 3, 4⟩]
        ⟨"t", [], "r", "u"⟩ true).wrote = false) :=
  ⟨by decide,
    C5_empty_prereqs_no_persist ⟨[], [], [], ["a"], 10⟩ "k"
      [⟨"d", "a", false, "a", 3, 4⟩] ⟨"t", [], "r", "u"⟩ true (by decide)⟩

/-- C7 counterexample: a database file whose content cannot be parsed
makes the constructor of buildaudit.py propagate ValueError (only
IOError is caught), so constructing does not succeed with an empty
database as claimed. -/
theorem C7_counterexample :
    buildaudit.init_db buildaudit.LoadResult.valueError
        = Except.error buildaudit.PyError.valueError ∧
    buildaudit.init_db buildaudit.LoadResult.valueError ≠ Except.ok [] :=
  ⟨rfl, fun h => Except.noConfusion h⟩

/-- C7 amended: only a failure to open the file (IOError, e.g. a missing
database) is treated as no prior data; readable content that parses is
used verbatim, and readable content that does not parse raises. -/
theorem C7_init_amended :
    buildaudit.init_db buildaudit.LoadResult.ioError = Except.ok [] ∧
    (∀ d, buildaudit.init_db (buildaudit.LoadResult.parsed d) = Except.ok d) ∧
    buildaudit.init_db buildaudit.LoadResult.valueError
      = Except.error buildaudit.PyError.valueError :=
  ⟨rfl, fun _ => rfl, rfl⟩

/-- C6: when the second reference-clock sample's access time is not
strictly newer than the first's, setup stores the -1 sentinel, noatime
reports true, and the audit step of AuditBuild.main then skips the
classifier entirely: the audit object (in-memory database, database file
content and new_targets) is returned unchanged with the skip warning,
and no targeted copy-back list is produced. -/
theorem C6_noatime_skips_audit (st : buildaudit.AuditState)
    (preFiles : List String) (samples1 samples2 : List buildaudit.Sample)
    (s1 s2 : buildaudit.Sample) (st2 : buildaudit.AuditState)
    (h1 : buildaudit.get_time_past samples1 0 = some s1)
    (h2 : buildaudit.get_time_past samples2 s1.mtime = some s2)
    (ha : s2.atime ≤ s1.atime)
    (hs : buildaudit.setup st preFiles samples1 samples2 = some st2) :
    buildaudit.noatime st2 = true ∧
    ∀ key files meta replace ext,
      (AuditBuild.auditStep st2 key files meta replace ext).state = st2 ∧
      (AuditBuild.auditStep st2 key files meta replace ext).warnedNoatime = true ∧
      (AuditBuild.auditStep st2 key files meta replace ext).copyBack = none := by
  have hlt : ¬ s1.atime < s2.atime := not_lt.mpr ha
  unfold buildaudit.setup at hs
  rw [h1] at hs
  rw [Option.some_bind] at hs
  rw [h2] at hs
  rw [Option.map_some'] at hs
  rw [if_neg hlt] at hs
  rw [Option.some.injEq] at hs
  subst hs
  have hna : buildaudit.noatime
      ⟨st.db, st.disk, st.new_targets, preFiles, -1⟩ = true := rfl
  refine ⟨hna, fun key files meta replace ext => ?_⟩
  simp [AuditBuild.auditStep, hna]

/-- Witness for C6: a filesystem whose second sample moves mtime but not
atime forces the noatime sentinel and an unchanged audit state. -/
theorem C6_noatime_skips_audit_witness :
    buildaudit.get_time_past [⟨1, 5⟩] 0 = some ⟨1, 5⟩ ∧
    buildaudit.get_time_past [⟨2, 5⟩] 1 = some ⟨2, 5⟩ ∧
    ((5 : Int) ≤ 5) ∧
    buildaudit.setup ⟨[], [], [("t", "T")], [], 0⟩ ["a"] [⟨1, 5⟩] [⟨2, 5⟩]
      = some ⟨[], [], [("t", "T")], ["a"], -1⟩ ∧
    (buildaudit.noatime ⟨[], [], [("t", "T")], ["a"], -1⟩ = true ∧
      ∀ key files meta replace ext,
        (AuditBuild.auditStep ⟨[], [], [("t", "T")], ["a"], -1⟩
            key files meta replace ext).state
          = ⟨[], [], [("t", "T")], ["a"], -1⟩ ∧
        (AuditBuild.auditStep ⟨[], [], [("t", "T")], ["a"], -1⟩
            key files meta replace ext).warnedNoatime = true ∧
        (AuditBuild.auditStep ⟨[], [], [("t", "T")], ["a"], -1⟩
            key files meta replace ext).copyBack = none) :=
  ⟨by decide, by decide, by decide, by decide,
    C6_noatime_skips_audit ⟨[], [], [("t", "T")], [], 0⟩ ["a"] [⟨1, 5⟩] [⟨2, 5⟩]
      ⟨1, 5⟩ ⟨2, 5⟩ ⟨[], [], [("t", "T")], ["a"], -1⟩
      (by decide) (by decide) (by decide) (by decide)⟩

/-- C9: get_time_past returns the first scratch-file sample whose mtime
strictly exceeds the bound it was given, so the second sample of setup
strictly exceeds the first, and whenever setup yields a usable reference
timestamp (noatime not signalled) that timestamp is the second sample's
mtime and strictly exceeds the first sample's. -/
theorem C9_clock_monotonic (st : buildaudit.AuditState) (preFiles : List String)
    (samples1 samples2 : List buildaudit.Sample) (s1 s2 : buildaudit.Sample)
    (st2 : buildaudit.AuditState)
    (h1 : buildaudit.get_time_past samples1 0 = some s1)
    (h2 : buildaudit.get_time_past samples2 s1.mtime = some s2)
    (hs : buildaudit.setup st preFiles samples1 samples2 = some st2)
    (hT : buildaudit.noatime st2 = false) :
    (∀ samples previous s, buildaudit.get_time_past samples previous = some s →
      previous < s.mtime) ∧
    0 < s1.mtime ∧ s1.mtime < s2.mtime ∧
    st2.reftime = s2.mtime ∧ s1.mtime < st2.reftime := by
  have hgen : ∀ samples previous s,
      buildaudit.get_time_past samples previous = some s → previous < s.mtime := by
    intro samples previous s h
    unfold buildaudit.get_time_past at h
    have hp := List.find?_some h
    exact of_decide_eq_true hp
  have h01 : (0 : Int) < s1.mtime := hgen samples1 0 s1 h1
  have h12 : s1.mtime < s2.mtime := hgen samples2 s1.mtime s2 h2
  unfold buildaudit.setup at hs
  rw [h1] at hs
  rw [Option.some_bind] at hs
  rw [h2] at hs
  rw [Option.map_some'] at hs
  rw [Option.some.injEq] at hs
  by_cases hlt : s1.atime < s2.atime
  · rw [if_pos hlt] at hs
    subst hs
    exact ⟨hgen, h01, h12, rfl, h12⟩
  · rw [if_neg hlt] at hs
    subst hs
    exact absurd hT (by simp [buildaudit.noatime])

/-- Witness for C9: a clock that visibly ticks on both samples. -/
theorem C9_clock_monotonic_witness :
    buildaudit.get_time_past [⟨1, 1⟩] 0 = some ⟨1, 1⟩ ∧
    buildaudit.get_time_past [⟨2, 3⟩] 1 = some ⟨2, 3⟩ ∧
    buildaudit.setup ⟨[], [], [], [], 0⟩ ["a"] [⟨1, 1⟩] [⟨2, 3⟩]
      = some ⟨[], [], [], ["a"], 2⟩ ∧
    buildaudit.noatime ⟨[], [], [], ["a"], 2⟩ = false ∧
    ((∀ samples previous s,
        buildaudit.get_time_past samples previous = some s → previous < s.mtime) ∧
      (0 : Int) < 1 ∧ (1 : Int) < 2 ∧
      (⟨[], [], [], ["a"], 2⟩ : buildaudit.AuditState).reftime = 2 ∧
      (1 : Int) < (⟨[], [], [], ["a"], 2⟩ : buildaudit.AuditState).reftime) :=
  ⟨by decide, by decide, by decide, by decide,
    C9_clock_monotonic ⟨[], [], [], [], 0⟩ ["a"] [⟨1, 1⟩] [⟨2, 3⟩] ⟨1, 1⟩ ⟨2, 3⟩
      ⟨[], [], [], ["a"], 2⟩ (by decide) (by decide) (by decide) (by decide)⟩

/-- C10: update from buildaudit.py extends new_targets with the
intermediates and terminals of the pass before the persistence decision
in every branch; in particular a refused persistence (empty prereq set)
still mutates new_targets while leaving the database file alone, and the
copy-back step of AuditBuild.main consumes exactly this set. -/
theorem C10_new_targets_always_merged (st : buildaudit.AuditState) (key : String)
    (files : List buildaudit.FileInfo) (meta : buildaudit.Meta) (replace : Bool)
    (hp : (buildaudit.visitAll st.pre_existing st.reftime files).prereqs.isEmpty
      = true)
    (hn : buildaudit.noatime st = false) :
    (∀ st2 key2 files2 meta2 replace2,
      (buildaudit.update st2 key2 files2 meta2 replace2).state.new_targets =
        dictUpdate (dictUpdate st2.new_targets
            (buildaudit.visitAll st2.pre_existing st2.reftime files2).intermediates)
          (buildaudit.visitAll st2.pre_existing st2.reftime files2).terminals) ∧
    (buildaudit.update st key files meta replace).warned = true ∧
    (buildaudit.update st key files meta replace).wrote = false ∧
    (buildaudit.update st key files meta replace).state.disk = st.disk ∧
    (buildaudit.update st key files meta replace).state.new_targets =
      dictUpdate (dictUpdate st.new_targets
          (buildaudit.visitAll st.pre_existing st.reftime files).intermediates)
        (buildaudit.visitAll st.pre_existing st.reftime files).terminals ∧
    (AuditBuild.auditStep st key files meta replace true).copyBack =
      (if (buildaudit.update st key files meta replace).state.new_targets.isEmpty
        then none
        else some (buildaudit.update st key files meta replace).state.new_targets) := by
  have hgen : ∀ st2 key2 files2 meta2 replace2,
      (buildaudit.update st2 key2 files2 meta2 replace2).state.new_targets =
        dictUpdate (dictUpdate st2.new_targets
            (buildaudit.visitAll st2.pre_existing st2.reftime files2).intermediates)
          (buildaudit.visitAll st2.pre_existing st2.reftime files2).terminals := by
    intro st2 key2 files2 meta2 replace2
    cases hp2 : (buildaudit.visitAll st2.pre_existing st2.reftime files2).prereqs.isEmpty with
    | true =>
      rw [buildaudit.update_eq_of_empty st2 key2 files2 meta2 replace2 hp2]
      rfl
    | false =>
      cases replace2 with
      | true =>
        rw [buildaudit.update_eq_replace st2 key2 files2 meta2 hp2]
        rfl
      | false =>
        rw [buildaudit.update_eq_noreplace st2 key2 files2 meta2 hp2]
        rfl
  refine ⟨hgen, ?_, ?_, ?_, hgen st key files meta replace, ?_⟩
  · rw [buildaudit.update_eq_of_empty st key files meta replace hp]
  · rw [buildaudit.update_eq_of_empty st key files meta replace hp]
  · rw [buildaudit.update_eq_of_empty st key files meta replace hp]
  · cases he : (buildaudit.update st key files meta replace).state.new_targets.isEmpty with
    | true => simp [AuditBuild.auditStep, hn, he]
    | false => simp [AuditBuild.auditStep, hn, he]

/-- Witness for C10: an untouched tree yields no prerequisites, yet the
new_targets dict passed to the copy-back rsync is still the merged set. -/
theorem C10_new_targets_always_merged_witness :
    (buildaudit.visitAll [] 10 []).prereqs.isEmpty = true ∧
    buildaudit.noatime ⟨[], [], [("t", "T")], [], 10⟩ = false ∧
    ((buildaudit.update ⟨[], [], [("t", "T")], [], 10⟩ "k" [] ⟨"t", [], "r", "u"⟩
        false).warned = true ∧
      (buildaudit.update ⟨[], [], [("t", "T")], [], 10⟩ "k" [] ⟨"t", [], "r", "u"⟩
        false).state.new_targets =
        dictUpdate (dictUpdate [("t", "T")] (buildaudit.visitAll [] 10 []).intermediates)
          (buildaudit.visitAll [] 10 []).terminals ∧
      (AuditBuild.auditStep ⟨[], [], [("t", "T")], [], 10⟩ "k" [] ⟨"t", [], "r", "u"⟩
          false true).copyBack = some [("t", "T")]) := by
  refine ⟨by decide, by decide, ?_, ?_, ?_⟩
  · exact (C10_new_targets_always_merged ⟨[], [], [("t", "T")], [], 10⟩ "k" []
      ⟨"t", [], "r", "u"⟩ false (by decide) (by decide)).2.1
  · exact (C10_new_targets_always_merged ⟨[], [], [("t", "T")], [], 10⟩ "k" []
      ⟨"t", [], "r", "u"⟩ false (by decide) (by decide)).2.2.2.2.1
  · have h := (C10_new_targets_always_merged ⟨[], [], [("t", "T")], [], 10⟩ "k" []
      ⟨"t", [], "r", "u"⟩ false (by decide) (by decide)).2.2.2.2.2
    rw [h]
    decide

/-- C4: classification in buildaudit.py is a total function of atime,
mtime, reference time and pre-existing membership; every kept file lands
in the dict of its class, and when the kept relative paths of one pass
are distinct the four dicts are pairwise disjoint, so no path appears in
two categories. -/
theorem C4_partition (pre : List String) (reftime : Int)
    (files : List buildaudit.FileInfo)
    (hnd : ((files.filter (fun f => buildaudit.keepFile f)).map
      (fun f => f.rpath)).Nodup) :
    (∀ pre1 pre2 T (g1 g2 : buildaudit.FileInfo), g1.atime = g2.atime →
      g1.mtime = g2.mtime → ((g1.rpath ∈ pre1) ↔ (g2.rpath ∈ pre2)) →
      buildaudit.classify pre1 T g1 = buildaudit.classify pre2 T g2) ∧
    (∀ f, f ∈ files → buildaudit.keepFile f = true →
      f.rpath ∈ keys (buildaudit.catMap (buildaudit.visitAll pre reftime files)
        (buildaudit.classify pre reftime f))) ∧
    (∀ c1 c2, c1 ≠ c2 → ∀ q,
      q ∈ keys (buildaudit.catMap (buildaudit.visitAll pre reftime files) c1) →
      q ∉ keys (buildaudit.catMap (buildaudit.visitAll pre reftime files) c2)) := by
  refine ⟨?_, ?_, ?_⟩
  · intro pre1 pre2 T g1 g2 hA hM hIff
    have hmem : inPre pre1 g1.rpath = inPre pre2 g2.rpath := by
      by_cases h : g1.rpath ∈ pre1
      · rw [(inPre_iff _ _).mpr h, (inPre_iff _ _).mpr (hIff.mp h)]
      · rw [(inPre_eq_false_iff _ _).mpr h,
          (inPre_eq_false_iff _ _).mpr (fun h2 => h (hIff.mpr h2))]
    simp only [buildaudit.classify, hA, hM, hmem]
  · intro f hf hk
    exact (buildaudit.mem_keys_visitAll pre reftime files
      (buildaudit.classify pre reftime f) f.rpath).mpr ⟨f, hf, hk, rfl, rfl⟩
  · intro c1 c2 hne q h1 h2
    obtain ⟨f1, hf1, hk1, hr1, hc1⟩ :=
      (buildaudit.mem_keys_visitAll pre reftime files c1 q).mp h1
    obtain ⟨f2, hf2, hk2, hr2, hc2⟩ :=
      (buildaudit.mem_keys_visitAll pre reftime files c2 q).mp h2
    have hm1 : f1 ∈ files.filter (fun f => buildaudit.keepFile f) :=
      List.mem_filter.mpr ⟨hf1, hk1⟩
    have hm2 : f2 ∈ files.filter (fun f => buildaudit.keepFile f) :=
      List.mem_filter.mpr ⟨hf2, hk2⟩
    have heq : f1 = f2 := List.inj_on_of_nodup_map hnd hm1 hm2 (by rw [hr1, hr2])
    apply hne
    rw [← hc1, ← hc2, heq]

/-- Witness for C4 over a small pass containing one file of each kind. -/
theorem C4_partition_witness :
    (([⟨"d", "p", false, "p", 12, 5⟩, ⟨"d", "i", false, "i", 15, 12⟩,
        ⟨"d", "t", false, "t", 12, 12⟩, ⟨"d", "u", false, "u", 3, 4⟩].filter
          (fun f => buildaudit.keepFile f)).map
        (fun f => f.rpath)).Nodup ∧
    (∀ c1 c2, c1 ≠ c2 → ∀ q,
      q ∈ keys (buildaudit.catMap (buildaudit.visitAll ["p"] 10
        [⟨"d", "p", false, "p", 12, 5⟩, ⟨"d", "i", false, "i", 15, 12⟩,
          ⟨"d", "t", false, "t", 12, 12⟩, ⟨"d", "u", false, "u", 3, 4⟩]) c1) →
      q ∉ keys (buildaudit.catMap (buildaudit.visitAll ["p"] 10
        [⟨"d", "p", false, "p", 12, 5⟩, ⟨"d", "i", false, "i", 15, 12⟩,
          ⟨"d", "t", false, "t", 12, 12⟩, ⟨"d", "u", false, "u", 3, 4⟩]) c2)) :=
  ⟨by decide,
    (C4_partition ["p"] 10
      [⟨"d", "p", false, "p", 12, 5⟩, ⟨"d", "i", false, "i", 15, 12⟩,
        ⟨"d", "t", false, "t", 12, 12⟩, ⟨"d", "u", false, "u", 3, 4⟩]
      (by decide)).2.2⟩

/-- C8 counterexample: in buildaudit.py a replace update with a
non-empty prerequisite set rewrites the database file even though the
new path sets add nothing beyond the stored record for that key, so the
claimed only-on-change write gating fails at this input. -/
theorem C8_counterexample :
    (buildaudit.visitAll ["a"] 10 [⟨"d", "a", false, "a", 12, 5⟩]).prereqs.isEmpty
      = false ∧
    addsNewKey (buildaudit.visitAll ["a"] 10 [⟨"d", "a", false, "a", 12, 5⟩]).prereqs
      [("a", "P")] = false ∧
    addsNewKey (buildaudit.visitAll ["a"] 10
      [⟨"d", "a", false, "a", 12, 5⟩]).intermediates [] = false ∧
    addsNewKey (buildaudit.visitAll ["a"] 10
      [⟨"d", "a", false, "a", 12, 5⟩]).terminals [] = false ∧
    addsNewKey (buildaudit.visitAll ["a"] 10
      [⟨"d", "a", false, "a", 12, 5⟩]).unusedFiles [] = false ∧
    (buildaudit.update
      ⟨[("k", ⟨[("a", "P")], [], [], [], ⟨"t0", [], "r0", "u0"⟩⟩)],
        [("k", ⟨[("a", "P")], [], [], [], ⟨"t0", [], "r0", "u0"⟩⟩)],
        [], ["a"], 10⟩
      "k" [⟨"d", "a", false, "a", 12, 5⟩] ⟨"t1", [], "r1", "u1"⟩ true).wrote
      = true ∧
    (buildaudit.update
      ⟨[("k", ⟨[("a", "P")], [], [], [], ⟨"t0", [], "r0", "u0"⟩⟩)],
        [("k", ⟨[("a", "P")], [], [], [], ⟨"t0", [], "r0", "u0"⟩⟩)],
        [], ["a"], 10⟩
      "k" [⟨"d", "a", false, "a", 12, 5⟩] ⟨"t1", [], "r1", "u1"⟩ true).state.disk
      ≠ [("k", ⟨[("a", "P")], [], [], [], ⟨"t0", [], "r0", "u0"⟩⟩)] := by
  decide

/-- C8 amended: the only-on-change write gating exists in the AuditMake
variant, and only on its incremental path: with replace false, a known
key and a non-empty accumulated prereq dict, the file is dumped exactly
when some path of the new prereq, interm or target dict is absent from
the stored record (the notused dict is not consulted), and a skipped
dump leaves the file content unchanged.  The buildaudit.py variant
rewrites the file on every replace update with non-empty prereqs,
changed or not, and never writes with replace false; the AuditMake
variant likewise always rewrites on replace true once the accumulated
prereq dict is non-empty. -/
theorem C8_write_guard_amended :
    (∀ (st : AuditMake.State) (key : String) (files : List AuditMake.FileInfo)
      (cmdline : List String),
      AuditMake.has st key = true →
      (AuditMake.visitAll st.reftime st.audit files).new_prereqs.isEmpty = false →
      ((AuditMake.update st key files cmdline false).wrote = true ↔
        ((∃ q ∈ keys (AuditMake.auditCat
              (AuditMake.visitAll st.reftime st.audit files) AuditMake.ACat.prereqs),
            q ∉ keys (AuditMake.oldCat st.db key AuditMake.ACat.prereqs)) ∨
         (∃ q ∈ keys (AuditMake.auditCat
              (AuditMake.visitAll st.reftime st.audit files) AuditMake.ACat.interms),
            q ∉ keys (AuditMake.oldCat st.db key AuditMake.ACat.interms)) ∨
         (∃ q ∈ keys (AuditMake.auditCat
              (AuditMake.visitAll st.reftime st.audit files) AuditMake.ACat.targets),
            q ∉ keys (AuditMake.oldCat st.db key AuditMake.ACat.targets)))) ∧
      ((AuditMake.update st key files cmdline false).wrote = false →
        (AuditMake.update st key files cmdline false).state.disk = st.disk)) ∧
    (∀ (st2 : buildaudit.AuditState) (key2 : String)
      (files2 : List buildaudit.FileInfo) (meta2 : buildaudit.Meta),
      (buildaudit.visitAll st2.pre_existing st2.reftime files2).prereqs.isEmpty
        = false →
      (buildaudit.update st2 key2 files2 meta2 true).wrote = true) ∧
    (∀ (st3 : buildaudit.AuditState) (key3 : String)
      (files3 : List buildaudit.FileInfo) (meta3 : buildaudit.Meta),
      (buildaudit.update st3 key3 files3 meta3 false).wrote = false ∧
      (buildaudit.update st3 key3 files3 meta3 false).state.disk = st3.disk) ∧
    (∀ (st4 : AuditMake.State) (key4 : String) (files4 : List AuditMake.FileInfo)
      (cmdline4 : List String),
      (AuditMake.visitAll st4.reftime st4.audit files4).new_prereqs.isEmpty
        = false →
      (AuditMake.update st4 key4 files4 cmdline4 true).wrote = true) := by
  refine ⟨?_, ?_, ?_, ?_⟩
  · intro st key files cmdline hk hp
    have hdb1 : AuditMake.db1Of st key cmdline false = st.db :=
      AuditMake.db1Of_of_has st key cmdline hk
    cases hch : AuditMake.changed (AuditMake.visitAll st.reftime st.audit files)
        (AuditMake.db1Of st key cmdline false) key with
    | false =>
      rw [AuditMake.update_eq_nowriteAM st key files cmdline false hp hch]
      have hsub := hch
      rw [hdb1] at hsub
      simp only [AuditMake.changed, Bool.or_eq_false_iff] at hsub
      obtain ⟨⟨hsp, hsi⟩, hst2⟩ := hsub
      constructor
      · constructor
        · intro h
          exact absurd h (by simp)
        · rintro (⟨q, hq1, hq2⟩ | ⟨q, hq1, hq2⟩ | ⟨q, hq1, hq2⟩)
          · exact absurd ((addsNewKey_eq_false_iff _ _).mp hsp q hq1) hq2
          · exact absurd ((addsNewKey_eq_false_iff _ _).mp hsi q hq1) hq2
          · exact absurd ((addsNewKey_eq_false_iff _ _).mp hst2 q hq1) hq2
      · intro _
        rfl
    | true =>
      rw [AuditMake.update_eq_writeAM st key files cmdline false hp hch]
      have hsub := hch
      rw [hdb1] at hsub
      simp only [AuditMake.changed, Bool.or_eq_true] at hsub
      constructor
      · constructor
        · intro _
          rcases hsub with (h | h) | h
          · exact Or.inl ((addsNewKey_eq_true_iff _ _).mp h)
          · exact Or.inr (Or.inl ((addsNewKey_eq_true_iff _ _).mp h))
          · exact Or.inr (Or.inr ((addsNewKey_eq_true_iff _ _).mp h))
        · intro _
          rfl
      · intro h
        exact absurd h (by simp)
  · intro st2 key2 files2 meta2 hp2
    rw [buildaudit.update_eq_replace st2 key2 files2 meta2 hp2]
  · intro st3 key3 files3 meta3
    cases hp3 : (buildaudit.visitAll st3.pre_existing st3.reftime files3).prereqs.isEmpty with
    | true =>
      rw [buildaudit.update_eq_of_empty st3 key3 files3 meta3 false hp3]
      exact ⟨rfl, rfl⟩
    | false =>
      rw [buildaudit.update_eq_noreplace st3 key3 files3 meta3 hp3]
      exact ⟨rfl, rfl⟩
  · intro st4 key4 files4 cmdline4 hp4
    have hold4 : AuditMake.oldCat (AuditMake.db1Of st4 key4 cmdline4 true) key4
        AuditMake.ACat.prereqs = [] := by
      rw [show AuditMake.db1Of st4 key4 cmdline4 true
          = assocSet st4.db key4 (AuditMake.emptyRecord cmdline4) from by
            simp [AuditMake.db1Of],
        AuditMake.oldCat_assocSet_self, AuditMake.recCat_emptyRecord]
    have hadds4 : addsNewKey
        (AuditMake.visitAll st4.reftime st4.audit files4).new_prereqs
        (AuditMake.oldCat (AuditMake.db1Of st4 key4 cmdline4 true) key4
          AuditMake.ACat.prereqs) = true := by
      rw [hold4]
      obtain ⟨q0, hq0⟩ := AuditMake.keys_exists_of_nonempty _ hp4
      exact (addsNewKey_eq_true_iff _ _).mpr ⟨q0, hq0, by simp [keys]⟩
    have hch4 : AuditMake.changed (AuditMake.visitAll st4.reftime st4.audit files4)
        (AuditMake.db1Of st4 key4 cmdline4 true) key4 = true := by
      simp [AuditMake.changed, hadds4]
    rw [AuditMake.update_eq_writeAM st4 key4 files4 cmdline4 true hp4 hch4]

/-- Witness for the amended C8: an incremental AuditMake update that adds
a prereq path writes, a buildaudit replace update writes, a buildaudit
non-replace update does not, and an AuditMake replace update writes. -/
theorem C8_write_guard_amended_witness :
    AuditMake.has ⟨[("k", ⟨[("b", "P")], [], [], [], [], none⟩)],
      [("k", ⟨[("b", "P")], [], [], [], [], none⟩)], ⟨[], [], [], []⟩, 10⟩ "k"
      = true ∧
    (AuditMake.visitAll 10 (⟨[], [], [], []⟩ : AuditMake.Audit)
      [⟨"d", false, "a", 12, 5⟩]).new_prereqs.isEmpty = false ∧
    (AuditMake.update ⟨[("k", ⟨[("b", "P")], [], [], [], [], none⟩)],
        [("k", ⟨[("b", "P")], [], [], [], [], none⟩)], ⟨[], [], [], []⟩, 10⟩
      "k" [⟨"d", false, "a", 12, 5⟩] [] false).wrote = true ∧
    (buildaudit.visitAll ["a"] 10 [⟨"d", "a", false, "a", 12, 5⟩]).prereqs.isEmpty
      = false ∧
    (buildaudit.update ⟨[], [], [], ["a"], 10⟩ "k" [⟨"d", "a", false, "a", 12, 5⟩]
      ⟨"t", [], "r", "u"⟩ true).wrote = true ∧
    (buildaudit.update ⟨[], [], [], ["a"], 10⟩ "k" [⟨"d", "a", false, "a", 12, 5⟩]
      ⟨"t", [], "r", "u"⟩ false).wrote = false ∧
    (AuditMake.update ⟨[], [], ⟨[], [], [], []⟩, 10⟩ "k"
      [⟨"d", false, "a", 12, 5⟩] [] true).wrote = true :=
  ⟨by decide, by decide,
    ((C8_write_guard_amended.1
        ⟨[("k", ⟨[("b", "P")], [], [], [], [], none⟩)],
          [("k", ⟨[("b", "P")], [], [], [], [], none⟩)], ⟨[], [], [], []⟩, 10⟩
        "k" [⟨"d", false, "a", 12, 5⟩] [] (by decide) (by decide)).1).mpr
      (by decide),
    by decide,
    C8_write_guard_amended.2.1 ⟨[], [], [], ["a"], 10⟩ "k"
      [⟨"d", "a", false, "a", 12, 5⟩] ⟨"t", [], "r", "u"⟩ (by decide),
    (C8_write_guard_amended.2.2.1 ⟨[], [], [], ["a"], 10⟩ "k"
      [⟨"d", "a", false, "a", 12, 5⟩] ⟨"t", [], "r", "u"⟩).1,
    C8_write_guard_amended.2.2.2 ⟨[], [], ⟨[], [], [], []⟩, 10⟩ "k"
      [⟨"d", false, "a", 12, 5⟩] [] (by decide)⟩

/-- C1 counterexample, both halves of the claim at concrete inputs.
In buildaudit.py, an update with replace false on a key with no prior
record and a non-empty prerequisite set stores nothing at all (the
record is absent afterwards and the file untouched), instead of
becoming the new sets verbatim as claimed.  In the AuditMake variant,
two successive replace-false updates (each with a non-empty prereq set)
against a record whose NOTUSED dict holds u0 drop u0 from the stored
NOTUSED set, so the per-category law old union A union B fails for the
unused category even where the merge path exists. -/
theorem C1_counterexample :
    (buildaudit.visitAll ["a"] 10 [⟨"d", "a", false, "a", 12, 5⟩]).prereqs.isEmpty
      = false ∧
    assocGet (buildaudit.update ⟨[], [], [], ["a"], 10⟩ "k"
      [⟨"d", "a", false, "a", 12, 5⟩] ⟨"t", [], "r", "u"⟩ false).state.db "k"
      = none ∧
    (buildaudit.update ⟨[], [], [], ["a"], 10⟩ "k"
      [⟨"d", "a", false, "a", 12, 5⟩] ⟨"t", [], "r", "u"⟩ false).state.disk
      = [] ∧
    (AuditMake.visitAll 10 AuditMake.emptyAudit
      [⟨"d", false, "a", 12, 5⟩, ⟨"d", false, "u1", 3, 4⟩]).new_prereqs.isEmpty
      = false ∧
    (AuditMake.visitAll 10 AuditMake.emptyAudit
      [⟨"d", false, "b", 12, 5⟩]).new_prereqs.isEmpty = false ∧
    "u0" ∈ keys (AuditMake.oldCat
      [("k", ⟨[("o", "P")], [], [], [("u0", "N")], [], none⟩)] "k"
      AuditMake.ACat.notused) ∧
    "u0" ∉ keys (AuditMake.oldCat
      (AuditMake.update (AuditMake.update
          ⟨[("k", ⟨[("o", "P")], [], [], [("u0", "N")], [], none⟩)],
            [("k", ⟨[("o", "P")], [], [], [("u0", "N")], [], none⟩)],
            ⟨[], [], [], []⟩, 10⟩
          "k" [⟨"d", false, "a", 12, 5⟩, ⟨"d", false, "u1", 3, 4⟩] [] false).state
        "k" [⟨"d", false, "b", 12, 5⟩] [] false).state.db "k"
      AuditMake.ACat.notused) := by
  decide

/-- C1 amended: with a non-empty prerequisite set per call, the two
variants behave differently.  In buildaudit.py, update with replace true
stores exactly the new classification (and dumps it), while update with
replace false stores nothing, even when the key has no prior record.  In
the AuditMake variant, update with replace true on a fresh audit object
stores exactly the new sets; two successive replace-false updates on
the same fresh object against an existing record leave, for the prereq,
interm and target categories, exactly the key set old union A union B;
and the merge law fails for the notused category: whenever any update
call dumps the record, its stored NOTUSED dict is the accumulated
new_notused verbatim, with no contribution from the old record (last
conjunct). -/
theorem C1_merge_amended :
    (∀ (st : buildaudit.AuditState) (key : String)
      (files : List buildaudit.FileInfo) (meta : buildaudit.Meta),
      (buildaudit.visitAll st.pre_existing st.reftime files).prereqs.isEmpty
        = false →
      assocGet (buildaudit.update st key files meta true).state.db key =
        some ⟨(buildaudit.visitAll st.pre_existing st.reftime files).prereqs,
          (buildaudit.visitAll st.pre_existing st.reftime files).intermediates,
          (buildaudit.visitAll st.pre_existing st.reftime files).terminals,
          (buildaudit.visitAll st.pre_existing st.reftime files).unusedFiles,
          meta⟩ ∧
      (buildaudit.update st key files meta true).state.disk =
        (buildaudit.update st key files meta true).state.db) ∧
    (∀ (st : buildaudit.AuditState) (key : String)
      (files : List buildaudit.FileInfo) (meta : buildaudit.Meta),
      (buildaudit.update st key files meta false).state.db = st.db ∧
      (buildaudit.update st key files meta false).state.disk = st.disk) ∧
    (∀ (st : AuditMake.State) (key : String) (files : List AuditMake.FileInfo)
      (cmdline : List String),
      st.audit = AuditMake.emptyAudit →
      (AuditMake.visitAll st.reftime AuditMake.emptyAudit files).new_prereqs.isEmpty
        = false →
      assocGet (AuditMake.update st key files cmdline true).state.db key =
        some ⟨(AuditMake.visitAll st.reftime AuditMake.emptyAudit files).new_prereqs,
          (AuditMake.visitAll st.reftime AuditMake.emptyAudit files).new_interms,
          (AuditMake.visitAll st.reftime AuditMake.emptyAudit files).new_targets,
          (AuditMake.visitAll st.reftime AuditMake.emptyAudit files).new_notused,
          cmdline, some (toString st.reftime)⟩) ∧
    (∀ (st : AuditMake.State) (key : String)
      (files1 files2 : List AuditMake.FileInfo) (cmdline1 cmdline2 : List String),
      st.audit = AuditMake.emptyAudit →
      AuditMake.has st key = true →
      (AuditMake.visitAll st.reftime AuditMake.emptyAudit files1).new_prereqs.isEmpty
        = false →
      ∀ c, (c = AuditMake.ACat.prereqs ∨ c = AuditMake.ACat.interms ∨
          c = AuditMake.ACat.targets) →
      ∀ q, (q ∈ keys (AuditMake.oldCat
          (AuditMake.update (AuditMake.update st key files1 cmdline1 false).state
            key files2 cmdline2 false).state.db key c) ↔
        (q ∈ keys (AuditMake.oldCat st.db key c) ∨
          q ∈ keys (AuditMake.auditCat
            (AuditMake.visitAll st.reftime AuditMake.emptyAudit files1) c) ∨
          q ∈ keys (AuditMake.auditCat
            (AuditMake.visitAll st.reftime AuditMake.emptyAudit files2) c)))) ∧
    (∀ (st : AuditMake.State) (key : String) (files : List AuditMake.FileInfo)
      (cmdline : List String) (replace : Bool),
      (AuditMake.update st key files cmdline replace).wrote = true →
      AuditMake.oldCat (AuditMake.update st key files cmdline replace).state.db
          key AuditMake.ACat.notused
        = (AuditMake.visitAll st.reftime st.audit files).new_notused) := by
  refine ⟨?_, ?_, ?_, ?_, ?_⟩
  · intro st key files meta hp
    rw [buildaudit.update_eq_replace st key files meta hp]
    exact ⟨assocGet_assocSet_self _ _ _, rfl⟩
  · intro st key files meta
    cases hp : (buildaudit.visitAll st.pre_existing st.reftime files).prereqs.isEmpty with
    | true =>
      rw [buildaudit.update_eq_of_empty st key files meta false hp]
      exact ⟨rfl, rfl⟩
    | false =>
      rw [buildaudit.update_eq_noreplace st key files meta hp]
      exact ⟨rfl, rfl⟩
  · intro st key files cmdline hA hp
    have hp2 : (AuditMake.visitAll st.reftime st.audit files).new_prereqs.isEmpty
        = false := by
      rw [hA]
      exact hp
    have hdb1 : AuditMake.db1Of st key cmdline true
        = assocSet st.db key (AuditMake.emptyRecord cmdline) := by
      simp [AuditMake.db1Of]
    have hold : ∀ c2, AuditMake.oldCat (AuditMake.db1Of st key cmdline true) key c2
        = [] := by
      intro c2
      rw [hdb1, AuditMake.oldCat_assocSet_self, AuditMake.recCat_emptyRecord]
    have hadds : addsNewKey
        (AuditMake.visitAll st.reftime st.audit files).new_prereqs
        (AuditMake.oldCat (AuditMake.db1Of st key cmdline true) key
          AuditMake.ACat.prereqs) = true := by
      rw [hold]
      obtain ⟨q0, hq0⟩ := AuditMake.keys_exists_of_nonempty _ hp2
      exact (addsNewKey_eq_true_iff _ _).mpr ⟨q0, hq0, by simp [keys]⟩
    have hch : AuditMake.changed (AuditMake.visitAll st.reftime st.audit files)
        (AuditMake.db1Of st key cmdline true) key = true := by
      simp [AuditMake.changed, hadds]
    rw [AuditMake.update_eq_writeAM st key files cmdline true hp2 hch]
    simp only []
    rw [assocGet_assocSet_self]
    simp [AuditMake.mergeAudit, hold, dictUpdate_nil, hA]
  · intro st key files1 files2 cmdline1 cmdline2 hA hk hp1 c hc q
    have hp1b : (AuditMake.visitAll st.reftime st.audit files1).new_prereqs.isEmpty
        = false := by
      rw [hA]
      exact hp1
    obtain ⟨hcats1, hk1, hrt1, hne1⟩ :=
      AuditMake.update_incremental st key files1 cmdline1 hk hp1b
    have hp2 : (AuditMake.visitAll
        (AuditMake.update st key files1 cmdline1 false).state.reftime
        (AuditMake.update st key files1 cmdline1 false).state.audit
        files2).new_prereqs.isEmpty = false := by
      obtain ⟨q0, hq0⟩ := AuditMake.keys_exists_of_nonempty _ hne1
      have hq0b : q0 ∈ keys (AuditMake.auditCat
          (AuditMake.visitAll
            (AuditMake.update st key files1 cmdline1 false).state.reftime
            (AuditMake.update st key files1 cmdline1 false).state.audit files2)
          AuditMake.ACat.prereqs) :=
        (AuditMake.mem_keys_visitAllAM _ files2 _ AuditMake.ACat.prereqs q0).mpr
          (Or.inl hq0)
      exact keys_mem_nonempty _ q0 hq0b
    obtain ⟨hcats2, hk2, hrt2, hne2⟩ :=
      AuditMake.update_incremental
        (AuditMake.update st key files1 cmdline1 false).state key files2 cmdline2
        hk1 hp2
    have hstored2 := (hcats2 c hc).1 q
    have hstored1 := (hcats1 c hc).1 q
    have haud1 := (hcats1 c hc).2.1 q
    have hBiff : (∃ f, f ∈ files2 ∧ AuditMake.keepFile f = true ∧ f.rpath = q ∧
        AuditMake.classify st.reftime f = c) ↔
        q ∈ keys (AuditMake.auditCat
          (AuditMake.visitAll st.reftime AuditMake.emptyAudit files2) c) := by
      rw [AuditMake.mem_keys_visitAllAM]
      simp [AuditMake.auditCat_emptyAudit, keys]
    have ha2 : q ∈ keys (AuditMake.auditCat
        (AuditMake.visitAll
          (AuditMake.update st key files1 cmdline1 false).state.reftime
          (AuditMake.update st key files1 cmdline1 false).state.audit files2) c) ↔
        (q ∈ keys (AuditMake.auditCat
            (AuditMake.update st key files1 cmdline1 false).state.audit c) ∨
          q ∈ keys (AuditMake.auditCat
            (AuditMake.visitAll st.reftime AuditMake.emptyAudit files2) c)) := by
      rw [AuditMake.mem_keys_visitAllAM, hrt1, hBiff]
    have ha1 : q ∈ keys (AuditMake.auditCat
        (AuditMake.visitAll st.reftime st.audit files1) c) ↔
        q ∈ keys (AuditMake.auditCat
          (AuditMake.visitAll st.reftime AuditMake.emptyAudit files1) c) := by
      rw [hA]
    constructor
    · intro h
      rcases hstored2.mp h with h1 | h1
      · rcases hstored1.mp h1 with h2 | h2
        · exact Or.inl h2
        · exact Or.inr (Or.inl (ha1.mp h2))
      · rcases ha2.mp h1 with h2 | h2
        · rcases hstored1.mp (haud1 h2) with h3 | h3
          · exact Or.inl h3
          · exact Or.inr (Or.inl (ha1.mp h3))
        · exact Or.inr (Or.inr h2)
    · rintro (h | h | h)
      · exact hstored2.mpr (Or.inl (hstored1.mpr (Or.inl h)))
      · exact hstored2.mpr (Or.inl (hstored1.mpr (Or.inr (ha1.mpr h))))
      · exact hstored2.mpr (Or.inr (ha2.mpr (Or.inr h)))
  · intro st key files cmdline replace hw
    cases hp : (AuditMake.visitAll st.reftime st.audit files).new_prereqs.isEmpty with
    | true =>
      rw [AuditMake.update_eq_of_emptyAM st key files cmdline replace hp] at hw
      exact absurd hw (by simp)
    | false =>
      cases hch : AuditMake.changed (AuditMake.visitAll st.reftime st.audit files)
          (AuditMake.db1Of st key cmdline replace) key with
      | false =>
        rw [AuditMake.update_eq_nowriteAM st key files cmdline replace hp hch] at hw
        exact absurd hw (by simp)
      | true =>
        rw [AuditMake.update_eq_writeAM st key files cmdline replace hp hch]
        simp only []
        rw [AuditMake.oldCat_assocSet_self]
        rfl

/-- Witness for the amended C1, exercising all five parts on concrete
stores and passes. -/
theorem C1_merge_amended_witness :
    (buildaudit.visitAll ["a"] 10 [⟨"d", "a", false, "a", 12, 5⟩]).prereqs.isEmpty
      = false ∧
    assocGet (buildaudit.update ⟨[], [], [], ["a"], 10⟩ "k"
      [⟨"d", "a", false, "a", 12, 5⟩] ⟨"t", [], "r", "u"⟩ true).state.db "k"
      = some ⟨[("a", "P")], [], [], [], ⟨"t", [], "r", "u"⟩⟩ ∧
    (buildaudit.update ⟨[], [], [], ["a"], 10⟩ "k2"
      [⟨"d", "a", false, "a", 12, 5⟩] ⟨"t", [], "r", "u"⟩ false).state.db = [] ∧
    assocGet (AuditMake.update ⟨[], [], ⟨[], [], [], []⟩, 10⟩ "k"
      [⟨"d", false, "a", 12, 5⟩] [] true).state.db "k"
      = some ⟨[("a", "P 2 -5")], [], [], [], [], some "10"⟩ ∧
    ("b" ∈ keys (AuditMake.oldCat
        (AuditMake.update (AuditMake.update
            ⟨[("k", ⟨[("o", "P")], [], [], [], [], none⟩)],
              [("k", ⟨[("o", "P")], [], [], [], [], none⟩)], ⟨[], [], [], []⟩, 10⟩
            "k" [⟨"d", false, "a", 12, 5⟩] [] false).state
          "k" [⟨"d", false, "b", 12, 5⟩] [] false).state.db "k"
        AuditMake.ACat.prereqs) ↔
      ("b" ∈ keys (AuditMake.oldCat
          [("k", ⟨[("o", "P")], [], [], [], [], none⟩)] "k" AuditMake.ACat.prereqs) ∨
        "b" ∈ keys (AuditMake.auditCat
          (AuditMake.visitAll 10 AuditMake.emptyAudit
            [⟨"d", false, "a", 12, 5⟩]) AuditMake.ACat.prereqs) ∨
        "b" ∈ keys (AuditMake.auditCat
          (AuditMake.visitAll 10 AuditMake.emptyAudit
            [⟨"d", false, "b", 12, 5⟩]) AuditMake.ACat.prereqs))) ∧
    AuditMake.oldCat (AuditMake.update ⟨[], [], ⟨[], [], [], []⟩, 10⟩ "k"
        [⟨"d", false, "a", 12, 5⟩] [] true).state.db "k" AuditMake.ACat.notused
      = (AuditMake.visitAll 10 (⟨[], [], [], []⟩ : AuditMake.Audit)
        [⟨"d", false, "a", 12, 5⟩]).new_notused :=
  ⟨by decide,
    (C1_merge_amended.1 ⟨[], [], [], ["a"], 10⟩ "k"
      [⟨"d", "a", false, "a", 12, 5⟩] ⟨"t", [], "r", "u"⟩ (by decide)).1,
    (C1_merge_amended.2.1 ⟨[], [], [], ["a"], 10⟩ "k2"
      [⟨"d", "a", false, "a", 12, 5⟩] ⟨"t", [], "r", "u"⟩).1,
    C1_merge_amended.2.2.1 ⟨[], [], ⟨[], [], [], []⟩, 10⟩ "k"
      [⟨"d", false, "a", 12, 5⟩] [] rfl (by decide),
    C1_merge_amended.2.2.2.1
      ⟨[("k", ⟨[("o", "P")], [], [], [], [], none⟩)],
        [("k", ⟨[("o", "P")], [], [], [], [], none⟩)], ⟨[], [], [], []⟩, 10⟩
      "k" [⟨"d", false, "a", 12, 5⟩] [⟨"d", false, "b", 12, 5⟩] [] []
      rfl (by decide) (by decide) AuditMake.ACat.prereqs (Or.inl rfl) "b",
    C1_merge_amended.2.2.2.2 ⟨[], [], ⟨[], [], [], []⟩, 10⟩ "k"
      [⟨"d", false, "a", 12, 5⟩] [] true (by decide)⟩
